import Mathlib

/-!
# Verification of the realtime messaging backend (`main.py`)

Shallow embedding of the passwordless-auth, session, room-registry and
message-gateway code of `src/main.py`, together with proofs about it.

Modelling conventions:
* Timestamps (`datetime` values) are modelled as integers (epoch seconds);
  `timedelta(minutes=m)` becomes `m * 60`.
* Store documents are modelled as structures whose optional fields reflect
  `dict.get` access in the code; a missing key and a `None` value coincide.
* `datetime.fromisoformat` is abstracted as an arbitrary partial parse
  function `parse : String → Option Int` (`none` = the string failed to parse),
  and the theorems are universally quantified over it.
* The document store (`database.create_document` / `database.get_documents`,
  declared an external collaborator in spec §1) persists records in insertion
  order; `get_documents` returns matching records in that order, up to `limit`.
* The Mongo handle `db` is assumed available throughout (the dev-mode
  `db is None` fallbacks in `_require_session` and the websocket endpoint are
  not modelled; every claim assumes an available store).
-/

namespace YFN

/-- An `expires_at` value as stored in a document: absent/`None`, a native
datetime (modelled as epoch seconds, always truthy in Python), or a string. -/
inductive TimeVal where
  | none
  | ts (t : Int)
  | str (s : String)
deriving DecidableEq

/-- A stored `authcode` document, with the fields `verify_code` reads via
`.get`: `_id`, `email`, `code`, `created_at`, `expires_at`, `used`.
`used` is the truthiness of the stored value (missing key = `False`). -/
structure AuthCodeRec where
  id : String
  email : String
  code : Option String
  created_at : Option Int
  expires_at : TimeVal
  used : Bool
deriving DecidableEq

/-- A stored `session` document, as written by `verify_code` (lines 186-191). -/
structure SessionRec where
  email : String
  token : String
  created_at : Int
  expires_at : TimeVal
deriving DecidableEq

/-- A stored `message` document. -/
structure MsgRec where
  room_id : String
  content : Option String
  sender_email : Option String
  sender_id : Option String
  created_at : Option Int
deriving DecidableEq

/-- Modelled from the spec: `database.py` is not part of the provided source;
spec §1 declares it an external collaborator exposing
`get_documents(collection, filter, limit) -> list<record>`.  It returns the
records matching the filter, at most `limit` of them, in store (insertion)
order — the natural order of a document store. -/
def get_documents (store : List α) (filt : α → Bool) (limit : Nat) : List α :=
  (store.filter filt).take limit

/-- Insert `a` into an already descending-sorted list, before the first
element whose key is not greater than `a`'s (so that elements with equal keys
keep their original relative order). -/
def insertDesc (key : α → Int) (a : α) : List α → List α
  | [] => [a]
  | b :: bs => if key b ≤ key a then a :: b :: bs else b :: insertDesc key a bs

/-- Python's `sorted(xs, key=key, reverse=True)`: a stable sort putting larger
keys first, ties in original order.  Stable insertion sort is extensionally
equal to it. -/
def sortByKeyDesc (key : α → Int) : List α → List α
  | [] => []
  | a :: as => insertDesc key a (sortByKeyDesc key as)

/-- The expiry test shared by `verify_code` (lines 165-172) and
`_require_session` (lines 214-221):

    exp = rec.get("expires_at")
    if isinstance(exp, str):
        try: exp = datetime.fromisoformat(exp)
        except Exception: exp = _now() - timedelta(seconds=1)
    if exp and exp < _now(): <expired>

A missing/`None` value is falsy, so the comparison is skipped and the record
passes; a datetime is always truthy; an unparsable string becomes
`now - 1 < now`, i.e. expired. -/
def expiredCheck (parse : String → Option Int) (now : Int) : TimeVal → Bool
  | TimeVal.none => false
  | TimeVal.ts t => decide (t < now)
  | TimeVal.str s =>
    match parse s with
    | some t => decide (t < now)
    | Option.none => true

/-- The body of the scan loop of `verify_code` (lines 162-175): a code record
is accepted when it is not used, not expired, and its `code` field equals the
submitted code. -/
def codeUsable (parse : String → Option Int) (now : Int) (pcode : String)
    (c : AuthCodeRec) : Bool :=
  if c.used then false
  else if expiredCheck parse now c.expires_at then false
  else c.code == some pcode

/-- The scan of `verify_code` (lines 160-175): sort the fetched codes by
`created_at` descending (missing `created_at` defaults to 0) and take the
first usable record. -/
def verify_scan (parse : String → Option Int) (now : Int)
    (codes : List AuthCodeRec) (pcode : String) : Option AuthCodeRec :=
  (sortByKeyDesc (fun c => c.created_at.getD 0) codes).find? (codeUsable parse now pcode)

/-- `update_one({"_id": valid["_id"]}, {"$set": {"used": True, ...}})`:
mark the record with the matched id as used. -/
def markUsed (rid : String) (c : AuthCodeRec) : AuthCodeRec :=
  if c.id == rid then { c with used := true } else c

/-- The successful outcome of `verify_code`: the returned token and email and
the updated `authcode` and `session` collections. -/
structure VerifyOk where
  token : String
  email : String
  newCodes : List AuthCodeRec
  newSessions : List SessionRec
deriving DecidableEq

/-- `verify_code` (lines 155-201).  `token` is the value produced by
`secrets.token_urlsafe(32)`; `sessionTTLmin` is `SESSION_TTL_MINUTES`.
`Option.none` is the 401 `Invalid or expired code` response.  The profile
lookup does not affect the store and is not modelled. -/
def verify_code (parse : String → Option Int) (now sessionTTLmin : Int)
    (token : String) (codes : List AuthCodeRec) (sessions : List SessionRec)
    (email pcode : String) : Option VerifyOk :=
  let fetched := get_documents codes (fun c => c.email == email) 50
  match verify_scan parse now fetched pcode with
  | Option.none => Option.none
  | some v =>
    let codes' := codes.map (markUsed v.id)
    let sess : SessionRec :=
      { email := email, token := token, created_at := now,
        expires_at := TimeVal.ts (now + sessionTTLmin * 60) }
    some { token := token, email := email, newCodes := codes',
           newSessions := sessions ++ [sess] }

/-- `s.lower()`: strings are character sequences, lowercased pointwise. -/
def pyLower (s : String) : String := ⟨s.data.map Char.toLower⟩

/-- `s.startswith(pre)`: the character sequence of `pre` heads that of `s`. -/
def pyStartsWith (s pre : String) : Bool := pre.data.isPrefixOf s.data

/-- `s.split(" ", 1)[1]`: everything after the first space.  (In
`_require_session` this is only reached when the lowercased header starts
with `"bearer "`, so a space is present.) -/
def afterFirstSpace (s : String) : String :=
  ⟨(s.data.dropWhile (fun c => c ≠ ' ')).drop 1⟩

/-- The error taxonomy of `_require_session` (all mapped to HTTP 401). -/
inductive AuthErr where
  | missingToken
  | invalidSession
  | sessionExpired
deriving DecidableEq

/-- `_require_session` (lines 204-222), with `db` available (the
`db is None` dev fallback is not modelled).  `find_one` returns the first
stored session whose `token` matches. -/
def require_session (parse : String → Option Int) (now : Int)
    (sessions : List SessionRec) (authorization : Option String) :
    Except AuthErr String :=
  match authorization with
  | Option.none => Except.error AuthErr.missingToken
  | some a =>
    if !(pyStartsWith (pyLower a) "bearer ") then Except.error AuthErr.missingToken
    else
      let token := afterFirstSpace a
      match sessions.find? (fun s => s.token == token) with
      | Option.none => Except.error AuthErr.invalidSession
      | some sess =>
        if expiredCheck parse now sess.expires_at then Except.error AuthErr.sessionExpired
        else Except.ok sess.email

/-- A live websocket handle. -/
abbrev Conn := Nat

/-- `ConnectionManager.active : Dict[str, List[WebSocket]]` as an association
list with unique keys. -/
abbrev Registry := List (String × List Conn)

/-- `self.active.get(room_id, [])`. -/
def regGet (reg : Registry) (room : String) : List Conn :=
  match reg.find? (fun p => p.1 == room) with
  | some p => p.2
  | Option.none => []

/-- Replace the room's list (in-place list mutation in Python), or insert the
key if absent (`setdefault`). -/
def regSet (reg : Registry) (room : String) (v : List Conn) : Registry :=
  if (reg.find? (fun p => p.1 == room)).isSome then
    reg.map (fun p => if p.1 == room then (room, v) else p)
  else reg ++ [(room, v)]

/-- `self.active.pop(room_id, None)`. -/
def regPop (reg : Registry) (room : String) : Registry :=
  reg.filter (fun p => !(p.1 == room))

/-- `ConnectionManager.connect` (lines 276-278):
`self.active.setdefault(room_id, []).append(websocket)`. -/
def connect (reg : Registry) (room : String) (ws : Conn) : Registry :=
  regSet reg room (regGet reg room ++ [ws])

/-- `ConnectionManager.disconnect` (lines 280-285): remove the first
occurrence of the handle if registered; if the room's list is then empty,
drop the room key. -/
def disconnect (reg : Registry) (room : String) (ws : Conn) : Registry :=
  let conns := regGet reg room
  let conns' := if conns.contains ws then conns.erase ws else conns
  if conns'.isEmpty then regPop reg room else regSet reg room conns'

/-- Outcome of one broadcast: the registry after the loop, the handles the
payload was delivered to (in iteration order), and the handles actually
closed by the server. -/
structure BroadcastResult where
  reg : Registry
  delivered : List Conn
  closed : List Conn
deriving DecidableEq

/-- One iteration of the broadcast loop (lines 292-300).  `fails ws` models
`await ws.send_json(data)` raising.  In the handler, `ws.close()` builds a
coroutine that is never awaited, so no close is actually performed — only
`self.disconnect(room_id, ws)` takes effect; `closed` therefore never grows. -/
def broadcastStep (fails : Conn → Bool) (room : String)
    (acc : BroadcastResult) (ws : Conn) : BroadcastResult :=
  if fails ws then { acc with reg := disconnect acc.reg room ws }
  else { acc with delivered := acc.delivered ++ [ws] }

/-- `ConnectionManager.broadcast` (lines 290-300): iterate over a snapshot
(`list(conns)`) of the room's current list, sending to each handle;
failures remove the handle and the loop continues. -/
def broadcast (fails : Conn → Bool) (reg : Registry) (room : String) :
    BroadcastResult :=
  (regGet reg room).foldl (broadcastStep fails room) ⟨reg, [], []⟩

/-- Result of the join phase of the websocket endpoint. -/
inductive WsOutcome where
  | rejected (code : Nat)
  | joined (reg : Registry)
deriving DecidableEq

/-- The join phase of `websocket_endpoint` (lines 306-317), with `db`
available.  The guard is Python truthiness — `if token:` — so validation
runs only for a supplied non-empty token: it is looked up in the `session`
collection by exact match — nothing else is checked — and the connection is
closed with code 4001 when no session is found.  An absent or empty-string
token is falsy, skips the lookup entirely, and the join completes. -/
def websocket_join (sessions : List SessionRec) (reg : Registry)
    (room : String) (ws : Conn) (token : Option String) : WsOutcome :=
  match token with
  | some t =>
    if t = "" then WsOutcome.joined (connect reg room ws)
    else if (sessions.find? (fun s => s.token == t)).isSome then
      WsOutcome.joined (connect reg room ws)
    else WsOutcome.rejected 4001
  | Option.none => WsOutcome.joined (connect reg room ws)

/-- The decimal digit character of `n % 10`. -/
def digitChar (n : Nat) : Char :=
  match n % 10 with
  | 0 => '0' | 1 => '1' | 2 => '2' | 3 => '3' | 4 => '4'
  | 5 => '5' | 6 => '6' | 7 => '7' | 8 => '8' | _ => '9'

/-- The f-string `f"{r:06d}"` on the domain of `secrets.randbelow(1000000)`
(`r < 1000000`): the six decimal digits of `r`, zero-padded. -/
def format06d (r : Nat) : String :=
  ⟨[digitChar (r / 100000), digitChar (r / 10000), digitChar (r / 1000),
    digitChar (r / 100), digitChar (r / 10), digitChar r]⟩

/-- `request_code` (lines 138-152).  `demo` is `DEMO_MODE`, `codeTTLmin` is
`CODE_TTL_MINUTES`, `rand` is the value drawn by `secrets.randbelow(1000000)`
and `newId` the id assigned by `create_document`.  Returns the updated
`authcode` collection and the JSON response as an ordered field list.
The new record's `created_at` stamp is modelled from the spec (§3: AuthCode
is "Created on each code request" with a `created_at` field; the `AuthCode`
schema class and `create_document` are not in the provided source). -/
def request_code (demo : Bool) (now codeTTLmin : Int) (rand : Nat)
    (newId : String) (store : List AuthCodeRec) (email : String) :
    List AuthCodeRec × List (String × String) :=
  let code := format06d rand
  let newRec : AuthCodeRec :=
    { id := newId, email := email, code := some code,
      created_at := some now,
      expires_at := TimeVal.ts (now + codeTTLmin * 60), used := false }
  let resp := [("status", "ok"), ("message", "Code sent")]
  let resp := if demo then resp ++ [("debug_code", code)] else resp
  (store ++ [newRec], resp)

/-- Modelled from the spec: the `Message` pydantic schema imported by
`main.py` is absent from the provided `schemas.py`; spec §3 gives the Message
fields as "room_id, content, sender_email or sender_id, created_at,
updated_at", so the request body carries `content` plus optional sender
fields. -/
structure MessageBody where
  content : String
  sender_email : Option String
  sender_id : Option String
deriving DecidableEq

/-- Python's `a or b` on an optional string: `None` and `""` are falsy. -/
def pyOr (a : Option String) (b : String) : String :=
  match a with
  | some s => if s = "" then b else s
  | Option.none => b

/-- `post_message` (lines 241-259): authenticate, build the record from the
body with `data["sender_email"] = data.get("sender_email") or sender_email`,
persist it, and return `{"id": inserted_id}`.  The `manager.broadcast(...)`
call on line 252 is made without `await` inside `try/except`, so the
coroutine is never run: it has no effect and cannot raise, and the response
is returned once persistence succeeds.  The persisted record's `created_at`
stamp is modelled from the spec (§3; `create_document` is not in the
provided source). -/
def post_message (parse : String → Option Int) (now : Int)
    (sessions : List SessionRec) (messages : List MsgRec) (room_id : String)
    (body : MessageBody) (authorization : Option String) (newId : String) :
    Except AuthErr (List MsgRec × String) :=
  match require_session parse now sessions authorization with
  | Except.error e => Except.error e
  | Except.ok sender_email =>
    let newRec : MsgRec :=
      { room_id := room_id, content := some body.content,
        sender_email := some (pyOr body.sender_email sender_email),
        sender_id := body.sender_id,
        created_at := some now }
    Except.ok (messages ++ [newRec], newId)

/-- `list_messages` (lines 262-269): fetch up to `limit` records for the room
(the limit applies at the fetch, before sorting), then sort by `created_at`
descending with missing `created_at` defaulting to 0. -/
def list_messages (messages : List MsgRec) (room_id : String) (limit : Nat) :
    List MsgRec :=
  let docs := get_documents messages (fun m => m.room_id == room_id) limit
  sortByKeyDesc (fun m => m.created_at.getD 0) docs

/-! ## Helper lemmas -/

theorem mem_insertDesc (key : α → Int) (a x : α) (l : List α) :
    x ∈ insertDesc key a l ↔ x = a ∨ x ∈ l := by
  induction l with
  | nil => simp [insertDesc]
  | cons b bs ih =>
    simp only [insertDesc]
    split
    · simp [or_comm, or_left_comm]
    · simp [ih, or_comm, or_left_comm]

theorem mem_sortByKeyDesc (key : α → Int) (x : α) (l : List α) :
    x ∈ sortByKeyDesc key l ↔ x ∈ l := by
  induction l with
  | nil => simp [sortByKeyDesc]
  | cons a as ih => simp [sortByKeyDesc, mem_insertDesc, ih]

theorem length_insertDesc (key : α → Int) (a : α) (l : List α) :
    (insertDesc key a l).length = l.length + 1 := by
  induction l with
  | nil => rfl
  | cons b bs ih =>
    simp only [insertDesc]
    split
    · simp
    · simp [ih]

theorem length_sortByKeyDesc (key : α → Int) (l : List α) :
    (sortByKeyDesc key l).length = l.length := by
  induction l with
  | nil => rfl
  | cons a as ih => simp [sortByKeyDesc, length_insertDesc, ih]

theorem pairwise_insertDesc (key : α → Int) (a : α) (l : List α)
    (h : l.Pairwise (fun x y => key y ≤ key x)) :
    (insertDesc key a l).Pairwise (fun x y => key y ≤ key x) := by
  induction l with
  | nil => simp [insertDesc]
  | cons b bs ih =>
    rcases List.pairwise_cons.mp h with ⟨hb, hbs⟩
    simp only [insertDesc]
    split
    · rename_i hba
      exact List.pairwise_cons.mpr ⟨by
        intro y hy
        rcases List.mem_cons.mp hy with rfl | hy
        · exact hba
        · exact le_trans (hb y hy) hba,
        h⟩
    · rename_i hba
      have hab : key a ≤ key b := le_of_lt (lt_of_not_le hba)
      exact List.pairwise_cons.mpr ⟨by
        intro y hy
        rcases (mem_insertDesc key a y bs).mp hy with rfl | hy
        · exact hab
        · exact hb y hy,
        ih hbs⟩

theorem pairwise_sortByKeyDesc (key : α → Int) (l : List α) :
    (sortByKeyDesc key l).Pairwise (fun x y => key y ≤ key x) := by
  induction l with
  | nil => simp [sortByKeyDesc]
  | cons a as ih => exact pairwise_insertDesc key a _ ih

theorem find?_append_right {p : α → Bool} (l₁ l₂ : List α)
    (h : l₁.find? p = Option.none) : (l₁ ++ l₂).find? p = l₂.find? p := by
  simp [List.find?_append, h]

theorem isPrefixOf_append_self [BEq α] [LawfulBEq α] (l r : List α) :
    l.isPrefixOf (l ++ r) = true := by
  rw [List.isPrefixOf_iff_prefix]
  exact List.prefix_append l r

theorem mk_data (s : String) : String.mk s.data = s := rfl

theorem bearer_lower_startsWith (t : String) :
    pyStartsWith (pyLower ("Bearer " ++ t)) "bearer " = true := by
  have hdata : ("Bearer " ++ t).data = "Bearer ".data ++ t.data :=
    String.data_append "Bearer " t
  have hmap : ("Bearer ".data ++ t.data).map Char.toLower =
      "bearer ".data ++ t.data.map Char.toLower := by
    rw [List.map_append]
    norm_num [String.data]
    refine ⟨?_, ?_, ?_, ?_, ?_, ?_, ?_⟩ <;> decide
  unfold pyStartsWith pyLower
  rw [hdata, hmap]
  exact isPrefixOf_append_self _ _

theorem afterFirstSpace_bearer (t : String) :
    afterFirstSpace ("Bearer " ++ t) = t := by
  unfold afterFirstSpace
  rw [String.data_append]
  show String.mk (List.drop 1 (List.dropWhile _ ('B' :: 'e' :: 'a' :: 'r' :: 'e' :: 'r' :: ' ' :: t.data))) = t
  simp only [List.dropWhile]
  norm_num
  exact mk_data t

theorem find?_map_update (reg : Registry) (room : String) (v : List Conn)
    (h : (reg.find? (fun p => p.1 == room)).isSome) :
    (reg.map (fun p => if p.1 == room then (room, v) else p)).find?
      (fun p => p.1 == room) = some (room, v) := by
  induction reg with
  | nil => simp at h
  | cons p ps ih =>
    by_cases hp : p.1 = room
    · simp [hp, List.find?_cons]
    · have hp' : (p.1 == room) = false := beq_eq_false_iff_ne.mpr hp
      have h2 : (ps.find? (fun q => q.1 == room)).isSome = true := by
        simpa [List.find?_cons, hp'] using h
      have hpn : ¬ ((p.1 == room) = true) := by simp [hp']
      rw [List.map_cons]
      show List.find? _ ((if p.1 == room then (room, v) else p) :: _) = _
      rw [if_neg hpn]
      have hstep :
          List.find? (fun q : String × List Conn => q.1 == room)
            (p :: List.map (fun q => if q.1 == room then (room, v) else q) ps) =
          List.find? (fun q => q.1 == room)
            (List.map (fun q => if q.1 == room then (room, v) else q) ps) := by
        simp only [List.find?_cons, hp']
      rw [hstep]
      exact ih h2

theorem regGet_regSet (reg : Registry) (room : String) (v : List Conn) :
    regGet (regSet reg room v) room = v := by
  unfold regSet
  split
  · rename_i h
    unfold regGet
    rw [find?_map_update reg room v h]
  · rename_i h
    unfold regGet
    rw [find?_append_right _ _ (Option.not_isSome_iff_eq_none.mp h)]
    simp [List.find?]

theorem find?_regPop (reg : Registry) (room : String) :
    (regPop reg room).find? (fun p => p.1 == room) = Option.none := by
  apply List.find?_eq_none.mpr
  intro x hx
  have := (List.mem_filter.mp hx).2
  simp only [Bool.not_eq_true'] at this
  simp [this]

theorem regGet_regPop (reg : Registry) (room : String) :
    regGet (regPop reg room) room = [] := by
  unfold regGet
  rw [find?_regPop]

/-! ## C1: failure condition of the VerifyCode scan -/

/-- The claim's validity predicate, written from the claim's words: unused,
`expires_at > now` (a string `expires_at` parsed as a timestamp, an
unparsable one treated as already expired), and the code string exactly
equal.  A missing `expires_at` has no `expires_at > now`, so it does not
count as unexpired here. -/
def specCodeValidStrict (parse : String → Option Int) (now : Int)
    (pcode : String) (c : AuthCodeRec) : Prop :=
  c.used = false ∧
  (match c.expires_at with
   | TimeVal.none => False
   | TimeVal.ts t => now < t
   | TimeVal.str s =>
     match parse s with
     | some t => now < t
     | Option.none => False) ∧
  c.code = some pcode

/-- The amended validity predicate: as above, but a record is unexpired when
`expires_at ≥ now` (the code skips a record only when `expires_at < now`),
and a missing/`None` `expires_at` counts as unexpired. -/
def specCodeValid (parse : String → Option Int) (now : Int)
    (pcode : String) (c : AuthCodeRec) : Prop :=
  c.used = false ∧
  (match c.expires_at with
   | TimeVal.none => True
   | TimeVal.ts t => now ≤ t
   | TimeVal.str s =>
     match parse s with
     | some t => now ≤ t
     | Option.none => False) ∧
  c.code = some pcode

theorem codeUsable_iff_specCodeValid (parse : String → Option Int)
    (now : Int) (pcode : String) (c : AuthCodeRec) :
    codeUsable parse now pcode c = true ↔ specCodeValid parse now pcode c := by
  unfold codeUsable specCodeValid expiredCheck
  cases hu : c.used with
  | true => simp
  | false =>
    cases he : c.expires_at with
    | none => simp
    | ts t =>
      by_cases hlt : t < now
      · simp [hlt, not_le.mpr hlt]
      · simp [hlt, not_lt.mp hlt]
    | str s =>
      cases hp : parse s with
      | none => simp [hp]
      | some t =>
        by_cases hlt : t < now
        · simp [hp, hlt, not_le.mpr hlt]
        · simp [hp, hlt, not_lt.mp hlt]

theorem verify_scan_none_iff (parse : String → Option Int) (now : Int)
    (codes : List AuthCodeRec) (pcode : String) :
    verify_scan parse now codes pcode = Option.none ↔
      ∀ c ∈ codes, ¬ specCodeValid parse now pcode c := by
  unfold verify_scan
  rw [List.find?_eq_none]
  constructor
  · intro h c hc hv
    exact h c ((mem_sortByKeyDesc _ c codes).mpr hc)
      ((codeUsable_iff_specCodeValid parse now pcode c).mpr hv)
  · intro h c hc hv
    exact h c ((mem_sortByKeyDesc _ c codes).mp hc)
      ((codeUsable_iff_specCodeValid parse now pcode c).mp hv)

/-- A code record whose `expires_at` equals the current instant. -/
def boundaryCode : AuthCodeRec :=
  { id := "i1", email := "a@b.com", code := some "123456",
    created_at := some 1, expires_at := TimeVal.ts 0, used := false }

/-! ## C10: missing `expires_at` passes both expiry checks -/

/-- C10: in both the `verify_code` scan and the `_require_session` check, a
record whose `expires_at` is missing/`None` passes the expiry check
unconditionally, because the comparison with `now` is only made when the
stored value is truthy: such an auth code is accepted as unexpired at every
`now`, and such a session never expires. -/
theorem missing_expiry_unconditional
    (parse : String → Option Int) (now : Int) (pcode : String)
    (c : AuthCodeRec) (s : SessionRec)
    (hcu : c.used = false) (hce : c.expires_at = TimeVal.none)
    (hcc : c.code = some pcode) (hse : s.expires_at = TimeVal.none) :
    codeUsable parse now pcode c = true ∧
    require_session parse now [s] (some ("Bearer " ++ s.token)) =
      Except.ok s.email := by
  constructor
  · simp [codeUsable, hcu, hce, expiredCheck, hcc]
  · have hb := bearer_lower_startsWith s.token
    have ha := afterFirstSpace_bearer s.token
    simp [require_session, hb, ha, List.find?, hse, expiredCheck]

def c10code : AuthCodeRec :=
  { id := "i2", email := "a@b.com", code := some "654321",
    created_at := some 1, expires_at := TimeVal.none, used := false }

def c10sess : SessionRec :=
  { email := "a@b.com", token := "tok10", created_at := 0,
    expires_at := TimeVal.none }

theorem missing_expiry_unconditional_witness :
    c10code.used = false ∧ c10code.expires_at = TimeVal.none ∧
    c10code.code = some "654321" ∧ c10sess.expires_at = TimeVal.none ∧
    (codeUsable (fun _ => Option.none) 99 "654321" c10code = true ∧
      require_session (fun _ => Option.none) 99 [c10sess]
        (some ("Bearer " ++ c10sess.token)) = Except.ok c10sess.email) :=
  ⟨rfl, rfl, rfl, rfl,
   missing_expiry_unconditional (fun _ => Option.none) 99 "654321" c10code
     c10sess rfl rfl rfl rfl⟩

/-! ## C2: single use of a valid code -/

theorem email_markUsed (rid : String) (c : AuthCodeRec) :
    (markUsed rid c).email = c.email := by
  unfold markUsed
  split <;> rfl

theorem filter_map_markUsed (rid email : String) (l : List AuthCodeRec) :
    (l.map (markUsed rid)).filter (fun c => c.email == email) =
      (l.filter (fun c => c.email == email)).map (markUsed rid) := by
  induction l with
  | nil => rfl
  | cons c cs ih =>
    by_cases hc : c.email = email
    · simp [List.filter_cons, email_markUsed, hc, ih]
    · have hcb : (c.email == email) = false := beq_eq_false_iff_ne.mpr hc
      simp [List.filter_cons, email_markUsed, hcb, ih]

theorem verify_code_eq_none_iff (parse : String → Option Int)
    (now ttl : Int) (token : String) (codes : List AuthCodeRec)
    (sessions : List SessionRec) (email pcode : String) :
    verify_code parse now ttl token codes sessions email pcode = Option.none ↔
      verify_scan parse now (get_documents codes (fun c => c.email == email) 50)
        pcode = Option.none := by
  unfold verify_code
  cases h : verify_scan parse now (get_documents codes (fun c => c.email == email) 50) pcode with
  | none => simp [h]
  | some v => simp [h]

theorem verify_code_eq_some (parse : String → Option Int) (now ttl : Int)
    (token : String) (codes : List AuthCodeRec) (sessions : List SessionRec)
    (email pcode : String) (v : AuthCodeRec)
    (h : verify_scan parse now (get_documents codes (fun c => c.email == email) 50)
      pcode = some v) :
    verify_code parse now ttl token codes sessions email pcode =
      some { token := token, email := email,
             newCodes := codes.map (markUsed v.id),
             newSessions := sessions ++
               [{ email := email, token := token, created_at := now,
                  expires_at := TimeVal.ts (now + ttl * 60) }] } := by
  unfold verify_code
  simp [h]

/-- C1 (amended): `VerifyCode(email, code)` fails with `InvalidOrExpiredCode`
(HTTP 401) exactly when, among the fetched AuthCode records for that email
(at most 50, ordered by `created_at` descending — the order does not affect
whether some record matches), no record is simultaneously unused
(`used=false`), unexpired, and carries a code string exactly equal to the
supplied code, where unexpired means: a timestamp `expires_at` with
`expires_at ≥ now`; a string `expires_at` parsed as a timestamp with the
parsed value `≥ now`, an unparsable string counting as already expired; and
a missing/`None` `expires_at` counting as unexpired.  In particular, for
every record with `now > expires_at` verification fails even when the code
string matches. -/
theorem verify_code_fails_iff (parse : String → Option Int) (now ttl : Int)
    (token : String) (codes : List AuthCodeRec) (sessions : List SessionRec)
    (email pcode : String) :
    verify_code parse now ttl token codes sessions email pcode = Option.none ↔
      ∀ c ∈ get_documents codes (fun c => c.email == email) 50,
        ¬ specCodeValid parse now pcode c := by
  rw [verify_code_eq_none_iff]
  exact verify_scan_none_iff parse now _ pcode

/-- C1 counterexample: at `now = 0`, a record with `expires_at = now` is
accepted (the code only skips records with `expires_at < now`), so
`VerifyCode` succeeds although no fetched record satisfies the claim's
strict `expires_at > now` predicate — the claimed equivalence is false at
this input. -/
theorem verify_code_fails_iff_cex :
    ¬ (verify_code (fun _ => Option.none) 0 1 "tk" [boundaryCode] []
        "a@b.com" "123456" = Option.none ↔
      ∀ c ∈ get_documents [boundaryCode] (fun c => c.email == "a@b.com") 50,
        ¬ specCodeValidStrict (fun _ => Option.none) 0 "123456" c) := by
  intro h
  have hall : ∀ c ∈ get_documents [boundaryCode]
      (fun c => c.email == "a@b.com") 50,
      ¬ specCodeValidStrict (fun _ => Option.none) 0 "123456" c := by
    intro c hc hv
    have hc' : c ∈ [boundaryCode] := by
      have : get_documents [boundaryCode] (fun c => c.email == "a@b.com") 50 =
          [boundaryCode] := by decide
      rw [this] at hc
      exact hc
    rcases List.mem_singleton.mp hc' with rfl
    exact absurd hv.2.1 (by simp [boundaryCode])
  exact absurd (h.mpr hall)
    (by decide : ¬ (verify_code (fun _ => Option.none) 0 1 "tk" [boundaryCode]
      [] "a@b.com" "123456" = Option.none))

/-- C2: for an (email, code) pair whose stored code record is usable
(unused, unexpired) and matches, with the email's code records within the
50-record fetch window and the usable matching record unique — the spec's §3
invariant — a first `VerifyCode` call succeeds returning the token, marks
that record `used=true`, and a second sequential call with the same email
and code fails with `InvalidOrExpiredCode` (store available and the
mark-used write succeeding throughout, as the claim assumes). -/
theorem verify_code_single_use
    (parse : String → Option Int) (now ttl : Int) (t₁ t₂ : String)
    (codes : List AuthCodeRec) (sessions sessions₂ : List SessionRec)
    (email pcode rid : String)
    (hlen : (codes.filter (fun c => c.email == email)).length ≤ 50)
    (hex : ∃ c ∈ codes, c.email = email ∧ c.id = rid ∧
      codeUsable parse now pcode c = true)
    (huniq : ∀ c ∈ codes, c.email = email →
      codeUsable parse now pcode c = true → c.id = rid) :
    ∃ r : VerifyOk,
      verify_code parse now ttl t₁ codes sessions email pcode = some r ∧
      r.token = t₁ ∧
      (∀ c ∈ r.newCodes, c.id = rid → c.used = true) ∧
      verify_code parse now ttl t₂ r.newCodes sessions₂ email pcode =
        Option.none := by
  have hfetch : get_documents codes (fun c => c.email == email) 50 =
      codes.filter (fun c => c.email == email) := by
    unfold get_documents
    exact List.take_of_length_le hlen
  obtain ⟨c, hc, hce, hcid, hcu⟩ := hex
  have hcf : c ∈ get_documents codes (fun c => c.email == email) 50 := by
    rw [hfetch]
    exact List.mem_filter.mpr ⟨hc, by simp [hce]⟩
  have hsome : verify_scan parse now
      (get_documents codes (fun c => c.email == email) 50) pcode ≠ Option.none := by
    intro hnone
    unfold verify_scan at hnone
    exact absurd hcu (by
      simpa using List.find?_eq_none.mp hnone c
        ((mem_sortByKeyDesc _ c _).mpr hcf))
  obtain ⟨v, hv⟩ := Option.ne_none_iff_exists'.mp hsome
  have hvp : codeUsable parse now pcode v = true := List.find?_some hv
  have hvmem : v ∈ get_documents codes (fun c => c.email == email) 50 :=
    (mem_sortByKeyDesc _ v _).mp (List.mem_of_find?_eq_some hv)
  rw [hfetch] at hvmem
  have hvcodes : v ∈ codes := (List.mem_filter.mp hvmem).1
  have hvemail : v.email = email := by
    have := (List.mem_filter.mp hvmem).2
    simpa using this
  have hvid : v.id = rid := huniq v hvcodes hvemail hvp
  subst hvid
  refine ⟨_, verify_code_eq_some parse now ttl t₁ codes sessions email pcode v hv,
    rfl, ?_, ?_⟩
  · intro c' hc' hid
    obtain ⟨c0, _, rfl⟩ := List.mem_map.mp hc'
    unfold markUsed
    unfold markUsed at hid
    split
    · rfl
    · rename_i hne
      rw [if_neg hne] at hid
      exact absurd (by simp [hid]) hne
  · rw [verify_code_eq_none_iff]
    unfold verify_scan
    apply List.find?_eq_none.mpr
    intro x hx
    have hx2 : x ∈ (codes.map (markUsed v.id)).filter (fun c => c.email == email) := by
      have := (mem_sortByKeyDesc _ x _).mp hx
      unfold get_documents at this
      exact List.mem_of_mem_take this
    rw [filter_map_markUsed] at hx2
    obtain ⟨c0, hc0, rfl⟩ := List.mem_map.mp hx2
    have hc0codes : c0 ∈ codes := (List.mem_filter.mp hc0).1
    have hc0email : c0.email = email := by
      have := (List.mem_filter.mp hc0).2
      simpa using this
    unfold markUsed
    split
    · simp [codeUsable]
    · rename_i hne
      intro habs
      exact hne (by simp [huniq c0 hc0codes hc0email habs])

def c2code : AuthCodeRec :=
  { id := "i3", email := "a@b.com", code := some "123456",
    created_at := some 1, expires_at := TimeVal.none, used := false }

theorem verify_code_single_use_witness :
    ([c2code].filter (fun c => c.email == "a@b.com")).length ≤ 50 ∧
    (∃ r : VerifyOk,
      verify_code (fun _ => Option.none) 0 1440 "tokA" [c2code] [] "a@b.com"
        "123456" = some r ∧
      r.token = "tokA" ∧
      (∀ c ∈ r.newCodes, c.id = "i3" → c.used = true) ∧
      verify_code (fun _ => Option.none) 0 1440 "tokB" r.newCodes [] "a@b.com"
        "123456" = Option.none) :=
  ⟨by decide,
   verify_code_single_use (fun _ => Option.none) 0 1440 "tokA" "tokB"
     [c2code] [] [] "a@b.com" "123456" "i3" (by decide)
     ⟨c2code, by decide, by decide, by decide, by decide⟩
     (by decide)⟩

/-! ## C3: session tokens round-trip until expiry -/

theorem find?_token_append (sessions : List SessionRec) (sess : SessionRec)
    (hfresh : ∀ s ∈ sessions, s.token ≠ sess.token) :
    (sessions ++ [sess]).find? (fun s => s.token == sess.token) = some sess := by
  rw [find?_append_right]
  · simp [List.find?]
  · apply List.find?_eq_none.mpr
    intro s hs
    simp [hfresh s hs]

/-- C3: if `VerifyCode` succeeds and returns token `t` (no previously stored
session sharing that token — the spec's token-uniqueness assumption), then
at every instant not later than the created session's `expires_at`,
`_require_session` applied to the header `Bearer ` + `t` succeeds and returns
exactly the verified email, and at every instant strictly after `expires_at`
it fails with `SessionExpired`. -/
theorem verify_roundtrip (parse : String → Option Int) (now ttl : Int)
    (token : String) (codes : List AuthCodeRec) (sessions : List SessionRec)
    (email pcode : String) (r : VerifyOk)
    (hv : verify_code parse now ttl token codes sessions email pcode = some r)
    (hfresh : ∀ s ∈ sessions, s.token ≠ token) :
    (∀ now₂ : Int, now₂ ≤ now + ttl * 60 →
      require_session parse now₂ r.newSessions (some ("Bearer " ++ token)) =
        Except.ok email) ∧
    (∀ now₃ : Int, now + ttl * 60 < now₃ →
      require_session parse now₃ r.newSessions (some ("Bearer " ++ token)) =
        Except.error AuthErr.sessionExpired) := by
  cases hscan : verify_scan parse now
      (get_documents codes (fun c => c.email == email) 50) pcode with
  | none =>
    rw [(verify_code_eq_none_iff parse now ttl token codes sessions
      email pcode).mpr hscan] at hv
    exact absurd hv (by simp)
  | some v =>
    rw [verify_code_eq_some parse now ttl token codes sessions email pcode v
      hscan] at hv
    obtain rfl : r = _ := (Option.some_inj.mp hv).symm
    have hb := bearer_lower_startsWith token
    have ha := afterFirstSpace_bearer token
    have hfind : (sessions ++
        [({ email := email, token := token, created_at := now,
            expires_at := TimeVal.ts (now + ttl * 60) } : SessionRec)]).find?
          (fun s => s.token == token) = some
          { email := email, token := token, created_at := now,
            expires_at := TimeVal.ts (now + ttl * 60) } :=
      find?_token_append sessions
        { email := email, token := token, created_at := now,
          expires_at := TimeVal.ts (now + ttl * 60) } hfresh
    constructor
    · intro now₂ h₂
      have hexp : expiredCheck parse now₂ (TimeVal.ts (now + ttl * 60)) = false := by
        simp [expiredCheck, not_lt.mpr h₂]
      simp [require_session, hb, ha, hfind, hexp]
    · intro now₃ h₃
      have hexp : expiredCheck parse now₃ (TimeVal.ts (now + ttl * 60)) = true := by
        simp [expiredCheck, h₃]
      simp [require_session, hb, ha, hfind, hexp]

def c3code : AuthCodeRec :=
  { id := "i4", email := "a@b.com", code := some "222333",
    created_at := some 1, expires_at := TimeVal.none, used := false }

def c3result : VerifyOk :=
  { token := "tokC", email := "a@b.com",
    newCodes := [{ c3code with used := true }],
    newSessions := [{ email := "a@b.com", token := "tokC", created_at := 0,
                      expires_at := TimeVal.ts 60 }] }

theorem verify_roundtrip_witness :
    verify_code (fun _ => Option.none) 0 1 "tokC" [c3code] [] "a@b.com"
      "222333" = some c3result ∧
    require_session (fun _ => Option.none) 60 c3result.newSessions
      (some ("Bearer " ++ "tokC")) = Except.ok "a@b.com" ∧
    require_session (fun _ => Option.none) 61 c3result.newSessions
      (some ("Bearer " ++ "tokC")) = Except.error AuthErr.sessionExpired :=
  ⟨by decide,
   (verify_roundtrip (fun _ => Option.none) 0 1 "tokC" [c3code] [] "a@b.com"
     "222333" c3result (by decide) (by decide)).1 60 (by decide),
   (verify_roundtrip (fun _ => Option.none) 0 1 "tokC" [c3code] [] "a@b.com"
     "222333" c3result (by decide) (by decide)).2 61 (by decide)⟩

/-! ## C4: broadcast delivery, failure isolation, and the missing close -/

/-- The registry used for the C4 failing input: one room with three
connections, the second of which fails on send. -/
def bcastReg : Registry := [("r1", [1, 2, 3])]

/-- C4 evaluated at the failing input (room `r1` with handles 1, 2, 3 and a
send failure on handle 2): the payload is delivered to every other
registered handle in registration order and the failing handle is removed
without aborting delivery — but no handle is closed, because the handler
calls `ws.close()` without `await`, so the close coroutine is never run:
the claimed forced closure does not happen. -/
theorem broadcast_failure_behavior :
    broadcast (fun ws => ws == 2) bcastReg "r1" =
      { reg := [("r1", [1, 3])], delivered := [1, 3], closed := [] } := by
  decide

/-! ## C5: leave removes one entry and prunes empty rooms -/

/-- C5: when the handle is registered in the room, `disconnect` removes
exactly one membership entry for it (the room's list becomes the old list
with the first occurrence erased, so the handle's count drops by one), and
whenever the room's list becomes empty the room key is removed from the
registry entirely — the registry has no entry for that room afterwards,
not an empty list. -/
theorem disconnect_spec (reg : Registry) (room : String) (ws : Conn)
    (h : ws ∈ regGet reg room) :
    regGet (disconnect reg room ws) room = (regGet reg room).erase ws ∧
    (regGet (disconnect reg room ws) room).count ws =
      (regGet reg room).count ws - 1 ∧
    ((regGet reg room).erase ws = [] →
      (disconnect reg room ws).find? (fun p => p.1 == room) = Option.none) := by
  have hcont : (regGet reg room).contains ws = true := by
    simpa using h
  have hmain : regGet (disconnect reg room ws) room =
      (regGet reg room).erase ws := by
    unfold disconnect
    simp only [hcont, if_true]
    by_cases he : ((regGet reg room).erase ws).isEmpty
    · rw [if_pos he, regGet_regPop]
      exact (List.isEmpty_iff.mp he).symm
    · rw [if_neg he, regGet_regSet]
  refine ⟨hmain, ?_, ?_⟩
  · rw [hmain]
    exact List.count_erase_self ws (regGet reg room)
  · intro he
    unfold disconnect
    simp only [hcont, if_true, he]
    simp [find?_regPop]

def c5reg : Registry := [("r1", [7]), ("r2", [8])]

theorem disconnect_spec_witness :
    7 ∈ regGet c5reg "r1" ∧
    (disconnect c5reg "r1" 7).find? (fun p => p.1 == "r1") = Option.none :=
  ⟨by decide, (disconnect_spec c5reg "r1" 7 (by decide)).2.2 (by decide)⟩

/-! ## C8: websocket join validates token by existence only -/

def expiredSess : SessionRec :=
  { email := "a@b.com", token := "tokE", created_at := 0,
    expires_at := TimeVal.ts 0 }

/-- C8 counterexample: at `now = 5` the stored session is expired, so the
Resolve semantics of §4.2 reject its token with `SessionExpired` — yet the
streaming join accepts the very same token and registers the connection,
because the websocket endpoint only checks that a session record with that
token exists and never checks `expires_at`.  The claimed "validated with the
same semantics as Resolve (including the session-expiry check)" is false at
this input. -/
theorem websocket_join_no_expiry_cex :
    require_session (fun _ => Option.none) 5 [expiredSess]
      (some ("Bearer " ++ "tokE")) = Except.error AuthErr.sessionExpired ∧
    websocket_join [expiredSess] [] "r1" 9 (some "tokE") =
      WsOutcome.joined [("r1", [9])] := by
  constructor
  · rfl
  · decide

/-- C8 (amended): on the streaming join path a supplied token is validated
only by existence and only when it is truthy — the endpoint looks a
non-empty token up in the session store by exact match and performs no
expiry check — so the connection is closed immediately with close code
4001, with no join, exactly when the token is non-empty and no session
record carries it; a falsy token (absent or the empty string) skips
validation entirely, and a non-empty token matching any session record
(even an expired one) lets the join complete and register the
connection. -/
theorem websocket_join_existence_only (sessions : List SessionRec)
    (reg : Registry) (room : String) (ws : Conn) (t : String) :
    (websocket_join sessions reg room ws (some t) = WsOutcome.rejected 4001 ↔
      t ≠ "" ∧ sessions.find? (fun s => s.token == t) = Option.none) ∧
    ((t = "" ∨ (sessions.find? (fun s => s.token == t)).isSome) →
      websocket_join sessions reg room ws (some t) =
        WsOutcome.joined (connect reg room ws)) := by
  unfold websocket_join
  by_cases ht : t = ""
  · simp [ht]
  · cases hf : sessions.find? (fun s => s.token == t) with
    | none => simp [ht, hf]
    | some s => simp [ht, hf]

theorem websocket_join_existence_only_witness :
    ("x" ≠ "" ∧ ([] : List SessionRec).find? (fun s => s.token == "x") =
      Option.none) ∧
    websocket_join [] [] "r1" 3 (some "x") = WsOutcome.rejected 4001 :=
  ⟨⟨by decide, by decide⟩,
   (websocket_join_existence_only [] [] "r1" 3 "x").1.mpr
     ⟨by decide, by decide⟩⟩

/-! ## C6: PostMessage persistence and sender fallback -/

def c6sess : SessionRec :=
  { email := "a@b.com", token := "t6", created_at := 0,
    expires_at := TimeVal.none }

def c6msg : MsgRec :=
  { room_id := "r1", content := some "hi", sender_email := some "a@b.com",
    sender_id := Option.none, created_at := some 5 }

/-- C6 counterexample: a body whose sender field is present but empty
(`sender_email = ""`) is falsy under Python's `or`, so the persisted record
carries the session's email, not the body's sender — refuting the claim that
the stored `sender_email` equals the body's sender whenever one is present. -/
theorem post_message_empty_sender_cex :
    post_message (fun _ => Option.none) 5 [c6sess] [] "r1"
      { content := "hi", sender_email := some "", sender_id := Option.none }
      (some ("Bearer " ++ "t6")) "m1" = Except.ok ([c6msg], "m1") ∧
    c6msg.sender_email ≠ some "" := by
  constructor
  · rfl
  · decide

/-- C6 (amended): with a valid session, `PostMessage` persists exactly one
new message record whose `room_id` is the path's room and whose
`sender_email` is the body's sender when one is present and non-empty,
falling back to the session's resolved email when the body's sender is
absent or empty (Python's `or`); once persistence succeeds the caller
receives the success response with the new record's id — the broadcast call
is an un-awaited coroutine wrapped in `try/except`, so it can neither run
nor raise, and never affects the response. -/
theorem post_message_spec
    (parse : String → Option Int) (now : Int) (sessions : List SessionRec)
    (messages : List MsgRec) (room : String) (body : MessageBody)
    (authorization : Option String) (newId : String) (semail : String)
    (hs : require_session parse now sessions authorization = Except.ok semail) :
    ∃ m : MsgRec,
      post_message parse now sessions messages room body authorization newId =
        Except.ok (messages ++ [m], newId) ∧
      m.room_id = room ∧
      m.content = some body.content ∧
      (∀ s, body.sender_email = some s → s ≠ "" → m.sender_email = some s) ∧
      ((body.sender_email = Option.none ∨ body.sender_email = some "") →
        m.sender_email = some semail) := by
  refine ⟨{ room_id := room, content := some body.content,
            sender_email := some (pyOr body.sender_email semail),
            sender_id := body.sender_id, created_at := some now },
    ?_, rfl, rfl, ?_, ?_⟩
  · unfold post_message
    rw [hs]
  · intro s hbs hne
    simp [pyOr, hbs, hne]
  · intro hcase
    rcases hcase with hn | he
    · simp [pyOr, hn]
    · simp [pyOr, he]

theorem post_message_spec_witness :
    require_session (fun _ => Option.none) 5 [c6sess]
      (some ("Bearer " ++ "t6")) = Except.ok "a@b.com" ∧
    (∃ m : MsgRec,
      post_message (fun _ => Option.none) 5 [c6sess] [] "r1"
        { content := "hi", sender_email := Option.none,
          sender_id := Option.none } (some ("Bearer " ++ "t6")) "m3" =
        Except.ok ([] ++ [m], "m3") ∧
      m.room_id = "r1" ∧
      m.content = some "hi" ∧
      (∀ s, (Option.none : Option String) = some s → s ≠ "" →
        m.sender_email = some s) ∧
      (((Option.none : Option String) = Option.none ∨
          (Option.none : Option String) = some "") →
        m.sender_email = some "a@b.com")) :=
  ⟨by rfl,
   post_message_spec (fun _ => Option.none) 5 [c6sess] [] "r1"
     { content := "hi", sender_email := Option.none, sender_id := Option.none }
     (some ("Bearer " ++ "t6")) "m3" "a@b.com" (by rfl)⟩

/-! ## C7: ListMessages ordering and the fetch window -/

def c7old : MsgRec :=
  { room_id := "r1", content := some "old", sender_email := some "x@y.zz",
    sender_id := Option.none, created_at := some 1 }

def c7new : MsgRec :=
  { room_id := "r1", content := some "hi", sender_email := some "a@b.com",
    sender_id := Option.none, created_at := some 5 }

/-- C7 counterexample: the fetch limit is applied before sorting, in store
order, so with one older message already in room `r1`, posting a new message
and then listing with `limit = 1 ≥ 1` returns only the older message — the
newly posted message is not first (it is not returned at all), refuting the
claim. -/
theorem list_messages_window_cex :
    post_message (fun _ => Option.none) 5 [c6sess] [c7old] "r1"
      { content := "hi", sender_email := some "a@b.com",
        sender_id := Option.none } (some ("Bearer " ++ "t6")) "m2" =
      Except.ok ([c7old, c7new], "m2") ∧
    list_messages [c7old, c7new] "r1" 1 = [c7old] ∧
    c7old ≠ c7new := by
  refine ⟨by rfl, by decide, by decide⟩

/-- C7 (amended): `ListMessages` returns at most `limit` records, all of
them records of the requested room, sorted by `created_at` descending with
a missing `created_at` treated as timestamp 0 (the oldest among nonnegative
timestamps); and posting a new message and then listing with `limit ≥ 1`
places it first provided the room's record count does not exceed `limit`
(so the newly appended record falls inside the fetch window) and the new
record's timestamp is strictly newest in the room. -/
theorem list_messages_spec
    (messages : List MsgRec) (room : String) (limit : Nat) (m : MsgRec)
    (hcount : (messages.filter (fun x => x.room_id == room)).length ≤ limit)
    (hm : m ∈ messages) (hmroom : m.room_id = room)
    (hnewest : ∀ x ∈ messages, x.room_id = room → x ≠ m →
      x.created_at.getD 0 < m.created_at.getD 0) :
    (list_messages messages room limit).head? = some m ∧
    (list_messages messages room limit).Pairwise
      (fun a b => b.created_at.getD 0 ≤ a.created_at.getD 0) ∧
    (list_messages messages room limit).length ≤ limit ∧
    ∀ x ∈ list_messages messages room limit, x.room_id = room ∧ x ∈ messages := by
  have hfetch : get_documents messages (fun x => x.room_id == room) limit =
      messages.filter (fun x => x.room_id == room) := by
    unfold get_documents
    exact List.take_of_length_le hcount
  have hL : list_messages messages room limit =
      sortByKeyDesc (fun x => x.created_at.getD 0)
        (messages.filter (fun x => x.room_id == room)) := by
    unfold list_messages
    rw [hfetch]
  have hpair : (list_messages messages room limit).Pairwise
      (fun a b => b.created_at.getD 0 ≤ a.created_at.getD 0) := by
    rw [hL]
    exact pairwise_sortByKeyDesc _ _
  have hsub : ∀ x ∈ list_messages messages room limit,
      x.room_id = room ∧ x ∈ messages := by
    intro x hx
    rw [hL] at hx
    have hx2 := (mem_sortByKeyDesc _ x _).mp hx
    exact ⟨by simpa using (List.mem_filter.mp hx2).2, (List.mem_filter.mp hx2).1⟩
  have hmemL : m ∈ list_messages messages room limit := by
    rw [hL]
    exact (mem_sortByKeyDesc _ m _).mpr
      (List.mem_filter.mpr ⟨hm, by simp [hmroom]⟩)
  refine ⟨?_, hpair, ?_, hsub⟩
  · cases hLl : list_messages messages room limit with
    | nil => rw [hLl] at hmemL; exact absurd hmemL (List.not_mem_nil m)
    | cons hd tl =>
      simp only [List.head?_cons]
      by_cases heq : hd = m
      · rw [heq]
      · exfalso
        have hhd : hd ∈ list_messages messages room limit := by
          rw [hLl]
          exact List.mem_cons_self hd tl
        obtain ⟨hhdroom, hhdmsg⟩ := hsub hd hhd
        have hlt := hnewest hd hhdmsg hhdroom heq
        have hmtl : m ∈ tl := by
          rw [hLl] at hmemL
          rcases List.mem_cons.mp hmemL with hmh | hmt
          · exact absurd hmh.symm heq
          · exact hmt
        have hle : m.created_at.getD 0 ≤ hd.created_at.getD 0 := by
          have := hpair
          rw [hLl] at this
          exact (List.pairwise_cons.mp this).1 m hmtl
        exact absurd hle (not_le.mpr hlt)
  · rw [hL, length_sortByKeyDesc]
    exact hcount

theorem list_messages_spec_witness :
    ([c7old, c7new].filter (fun x => x.room_id == "r1")).length ≤ 50 ∧
    (list_messages [c7old, c7new] "r1" 50).head? = some c7new :=
  ⟨by decide,
   (list_messages_spec [c7old, c7new] "r1" 50 c7new (by decide) (by decide)
     (by decide) (by decide)).1⟩

/-! ## C9: RequestCode persistence and the debug field -/

/-- C9 counterexample: in demo mode the response carries the generated code
under the field `debug_code`, not `debugCode` — the response never contains
a field named `debugCode`, refuting the claimed field name. -/
theorem request_code_debugCode_cex :
    (request_code true 0 10 7 "i9" [] "a@b.com").2.find?
      (fun p => p.1 == "debugCode") = Option.none ∧
    (request_code true 0 10 7 "i9" [] "a@b.com").2 =
      [("status", "ok"), ("message", "Code sent"), ("debug_code", "000007")] := by
  constructor
  · decide
  · decide

theorem digitChar_isDigit (n : Nat) : (digitChar n).isDigit = true := by
  have h : n % 10 = 0 ∨ n % 10 = 1 ∨ n % 10 = 2 ∨ n % 10 = 3 ∨ n % 10 = 4 ∨
      n % 10 = 5 ∨ n % 10 = 6 ∨ n % 10 = 7 ∨ n % 10 = 8 ∨ n % 10 = 9 := by
    omega
  rcases h with h|h|h|h|h|h|h|h|h|h <;> (unfold digitChar; rw [h]; decide)

/-- C9 (amended): `RequestCode` always persists exactly one new AuthCode
record, appended to the store, with `used = false` and a 6-digit zero-padded
decimal code formatted from the value drawn by `secrets.randbelow(1000000)`;
the response carries that code under the field `debug_code` if and only if
the demo-mode flag is enabled — in non-demo mode the response never contains
the code. -/
theorem request_code_spec
    (demo : Bool) (now ttl : Int) (rand : Nat) (newId : String)
    (store : List AuthCodeRec) (email : String) (hrand : rand < 1000000) :
    (request_code demo now ttl rand newId store email).1 =
      store ++ [{ id := newId, email := email, code := some (format06d rand),
                  created_at := some now,
                  expires_at := TimeVal.ts (now + ttl * 60), used := false }] ∧
    (format06d rand).length = 6 ∧
    (∀ ch ∈ (format06d rand).data, ch.isDigit = true) ∧
    ((request_code demo now ttl rand newId store email).2.find?
        (fun p => p.1 == "debug_code") = some ("debug_code", format06d rand) ↔
      demo = true) := by
  refine ⟨rfl, rfl, ?_, ?_⟩
  · intro ch hch
    have hch' : ch ∈ [digitChar (rand / 100000), digitChar (rand / 10000),
        digitChar (rand / 1000), digitChar (rand / 100), digitChar (rand / 10),
        digitChar rand] := hch
    simp only [List.mem_cons, List.not_mem_nil, or_false] at hch'
    rcases hch' with rfl|rfl|rfl|rfl|rfl|rfl <;> exact digitChar_isDigit _
  · unfold request_code
    cases demo
    · simp [List.find?]
    · simp [List.find?]

theorem request_code_spec_witness :
    7 < 1000000 ∧
    (request_code true 0 10 7 "i9b" [] "a@b.com").1 =
      [{ id := "i9b", email := "a@b.com", code := some (format06d 7),
         created_at := some 0, expires_at := TimeVal.ts 600,
         used := false }] :=
  ⟨by decide,
   (request_code_spec true 0 10 7 "i9b" [] "a@b.com" (by decide)).1⟩

end YFN
